import Mathlib

/-!
Shallow embedding of the fetch engine of the re_data_engineering repository.

The embedded sources are:
* src/src/repositories/http/base_http_client.py  (BaseHTTPClient.request,
  BaseHTTPClient._get_backoff_time, BaseHTTPClient._handle_rate_limit)
* src/src/repositories/http/rate_limiter.py      (RateLimiter.consume)
* src/src/repositories/http/random_headers.py    (get_random_header)
* src/src/scraper_class.py                       (IdealistaScraper.make_request,
  IdealistaScraper.scrape_properties, TokenBucket, the backoff helper)
* src/src/scrapers/idealista_scraper.py          (IdealistaScraper.scrape_properties,
  IdealistaScraper.scrape_search)
* src/src/parsers/idealista_parser.py            (IdealistaParser.get_total_pages)
* src/src/utils.py                               (chunks)
* src/src/flows/idealista_flow.py                (idealista_to_gcp_pipeline loop)

Network responses are abstracted into a script: attempt number i of a call
receives the classification of the i-th HTTP response of that call.  Sleeps are
counted, not performed.  Machine floats of the source are modelled as rationals.
-/

/-- Classification of one HTTP response, exactly as the branches of
BaseHTTPClient.request classify it: status 200, a rate-limit status
(403, 429, 503), or everything else (any other status, httpx.RequestError and
asyncio.TimeoutError all take the same retry branch). -/
inductive AttemptResult where
  | ok
  | rateLimit
  | transient
deriving DecidableEq

/-- Terminal outcome of one request call: a 200 response was returned, None was
returned after the retry loop, or RateLimitException was raised. -/
inductive Outcome where
  | success
  | failure
  | rateLimited
deriving DecidableEq

/-- Mutable per-client state threaded through a call: the last_successful_url
attribute and the referer entry of session.headers. -/
structure ClientState where
  last_successful_url : Option String
  referer : Option String
deriving DecidableEq

/-- Result of one request call: its outcome, how many HTTP requests were
issued, how many times a rate-limiter token was awaited, how many backoff
sleeps and how many long rate-limit cooldown sleeps happened, the final client
state, and the referer header attached to each outgoing request in order. -/
structure RunResult where
  outcome : Outcome
  requests : Nat
  tokenWaits : Nat
  backoffSleeps : Nat
  cooldownSleeps : Nat
  state : ClientState
  referers : List (Option String)
deriving DecidableEq

/-- Embedding of the referer update at the top of each attempt:
if self.last_successful_url: self.session.headers["referer"] = self.last_successful_url. -/
def updateReferer (s : ClientState) : ClientState :=
  match s.last_successful_url with
  | some u => { s with referer := some u }
  | none => s

namespace BaseHTTPClient

/-- Embedding of the loop body of BaseHTTPClient.request
(for retries in range(self.max_retries + 1)).  fuel is the number of loop
iterations still allowed and i is the current value of the loop variable
retries; the top-level call uses fuel = max_retries + 1 and i = 0, so fuel
reaching 0 is the loop running to completion and returning None.
On a 200 the call returns and records last_successful_url; on a rate-limit
status _handle_rate_limit sleeps the long cooldown when retries == 0 and
raises RateLimitException otherwise; on any other failure _wait_before_retry
sleeps a backoff and the loop continues. -/
def requestLoop (url : String) (script : Nat → AttemptResult) :
    Nat → Nat → ClientState → RunResult
  | 0, _, s => ⟨.failure, 0, 0, 0, 0, s, []⟩
  | fuel + 1, i, s =>
    let s1 := updateReferer s
    let ref := s1.referer
    match script i with
    | .ok =>
      ⟨.success, 1, 1, 0, 0, { s1 with last_successful_url := some url }, [ref]⟩
    | .rateLimit =>
      if i = 0 then
        let r := requestLoop url script fuel (i + 1) s1
        ⟨r.outcome, r.requests + 1, r.tokenWaits + 1, r.backoffSleeps,
          r.cooldownSleeps + 1, r.state, ref :: r.referers⟩
      else
        ⟨.rateLimited, 1, 1, 0, 0, s1, [ref]⟩
    | .transient =>
      let r := requestLoop url script fuel (i + 1) s1
      ⟨r.outcome, r.requests + 1, r.tokenWaits + 1, r.backoffSleeps + 1,
        r.cooldownSleeps, r.state, ref :: r.referers⟩

/-- Embedding of BaseHTTPClient.request for one URL. -/
def request (max_retries : Nat) (url : String) (script : Nat → AttemptResult)
    (s : ClientState) : RunResult :=
  requestLoop url script (max_retries + 1) 0 s

/-- Embedding of BaseHTTPClient._get_backoff_time:
wait_time = min(initial_backoff * (2 ** retry_count), max_backoff) scaled by a
jitter drawn uniformly from [0.5, 1.5); the draw is passed in explicitly. -/
def get_backoff_time (retry_count : Nat) (initial_backoff max_backoff jitter : ℚ) : ℚ :=
  min (initial_backoff * 2 ^ retry_count) max_backoff * jitter

end BaseHTTPClient

namespace ScraperClass

/-- Embedding of the loop body of IdealistaScraper.make_request in
src/src/scraper_class.py (while retry_count <= self.MAX_RETRIES).  It differs
from BaseHTTPClient.request in one point: the backoff sleep on a transient
failure is guarded by retry_count < MAX_RETRIES, and at retry_count ==
MAX_RETRIES the call returns None at once without sleeping. -/
def makeRequestLoop (url : String) (script : Nat → AttemptResult) (max_retries : Nat) :
    Nat → Nat → ClientState → RunResult
  | 0, _, s => ⟨.failure, 0, 0, 0, 0, s, []⟩
  | fuel + 1, i, s =>
    let s1 := updateReferer s
    let ref := s1.referer
    match script i with
    | .ok =>
      ⟨.success, 1, 1, 0, 0, { s1 with last_successful_url := some url }, [ref]⟩
    | .rateLimit =>
      if i = 0 then
        let r := makeRequestLoop url script max_retries fuel (i + 1) s1
        ⟨r.outcome, r.requests + 1, r.tokenWaits + 1, r.backoffSleeps,
          r.cooldownSleeps + 1, r.state, ref :: r.referers⟩
      else
        ⟨.rateLimited, 1, 1, 0, 0, s1, [ref]⟩
    | .transient =>
      if i < max_retries then
        let r := makeRequestLoop url script max_retries fuel (i + 1) s1
        ⟨r.outcome, r.requests + 1, r.tokenWaits + 1, r.backoffSleeps + 1,
          r.cooldownSleeps, r.state, ref :: r.referers⟩
      else
        ⟨.failure, 1, 1, 0, 0, s1, [ref]⟩

/-- Embedding of IdealistaScraper.make_request in src/src/scraper_class.py. -/
def make_request (max_retries : Nat) (url : String) (script : Nat → AttemptResult)
    (s : ClientState) : RunResult :=
  makeRequestLoop url script max_retries (max_retries + 1) 0 s

end ScraperClass

/-- Embedding of the RateLimiter class of
src/src/repositories/http/rate_limiter.py.  It stores a token count, a fill
rate and the clock reading of the last refill; there is no capacity field. -/
structure RateLimiter where
  tokens : ℚ
  fill_rate : ℚ
  last_time : ℚ
deriving DecidableEq

namespace RateLimiter

/-- Embedding of RateLimiter.consume: refill by elapsed * fill_rate with no
cap, then consume amount tokens when tokens >= amount.  The clock reading of
the call is passed in as now. -/
def consume (s : RateLimiter) (now amount : ℚ) : RateLimiter × Bool :=
  let elapsed := now - s.last_time
  let tokens := s.tokens + elapsed * s.fill_rate
  if amount ≤ tokens then (⟨tokens - amount, s.fill_rate, now⟩, true)
  else (⟨tokens, s.fill_rate, now⟩, false)

end RateLimiter

/-- Embedding of the TokenBucket class of src/src/scraper_class.py.  Unlike
RateLimiter it keeps a capacity and caps the refill with min. -/
structure TokenBucket where
  capacity : ℚ
  tokens : ℚ
  fill_rate : ℚ
  timestamp : ℚ
deriving DecidableEq

namespace TokenBucket

/-- Embedding of TokenBucket.get_tokens: refill by fill_rate * delta capped at
capacity with min, update the timestamp, and expose the new token count. -/
def get_tokens (s : TokenBucket) (now : ℚ) : TokenBucket :=
  ⟨s.capacity, min s.capacity (s.tokens + s.fill_rate * (now - s.timestamp)),
    s.fill_rate, now⟩

/-- Embedding of TokenBucket.consume: refill via get_tokens, then consume when
tokens <= refilled count. -/
def consume (s : TokenBucket) (now amount : ℚ) : TokenBucket × Bool :=
  let s2 := s.get_tokens now
  if amount ≤ s2.tokens then
    (⟨s2.capacity, s2.tokens - amount, s2.fill_rate, s2.timestamp⟩, true)
  else (s2, false)

/-- Runs a sequence of consume calls, each given as a pair of the clock reading
at the call and the amount requested. -/
def runConsume : TokenBucket → List (ℚ × ℚ) → TokenBucket
  | s, [] => s
  | s, (now, amount) :: rest => runConsume (s.consume now amount).1 rest

end TokenBucket

/-- Header bundle of get_random_header in
src/src/repositories/http/random_headers.py, restricted to the fields the
embedded claims mention: the referer entry and the user-agent key used to pick
the agent string.  Every one of the five bundles in the source sets referer to
https://www.google.es/. -/
structure HeaderSet where
  agent_key : String
  referer : Option String
deriving DecidableEq

/-- Embedding of the five header bundles of get_random_header, in source
order: Windows-Chrome, Windows-Firefox, Mac OS-Chrome, Mac OS-Safari,
Mac OS-Firefox.  The weighted random choice (weights 0.64, 0.1, 0.1, 0.13,
0.03) picks one of these; the draw is passed in as an index. -/
def header_bundles : List HeaderSet :=
  [⟨"Windows-Chrome", some "https://www.google.es/"⟩,
   ⟨"Windows-Firefox", some "https://www.google.es/"⟩,
   ⟨"Mac OS-Chrome", some "https://www.google.es/"⟩,
   ⟨"Mac OS-Safari", some "https://www.google.es/"⟩,
   ⟨"Mac OS-Firefox", some "https://www.google.es/"⟩]

/-- Embedding of get_random_header with the weighted draw abstracted into the
chosen index. -/
def get_random_header (choice : Fin 5) : HeaderSet :=
  header_bundles.get ⟨choice.1, by cases choice with | mk v h => simpa [header_bundles] using h⟩

/-- Outcome of awaiting one completed property-fetch task inside
scrape_properties: a parsed property (identified by a label), a completion
that yielded no property (request returned None or parsing failed), or a task
that raised RateLimitException. -/
inductive CompletionResult where
  | parsed (p : Nat)
  | failed
  | rateLimited
deriving DecidableEq

/-- Marker for a raised RateLimitException reaching the caller. -/
inductive RateLimitError where
  | raised
deriving DecidableEq

namespace ScraperClass

/-- Embedding of IdealistaScraper.scrape_properties of
src/src/scraper_class.py, as a function of the completion outcomes in arrival
order: parsed properties are appended; completions without data are skipped;
on RateLimitException the except branch logs and breaks, returning the
properties collected so far with no further marker. -/
def scrape_properties : List CompletionResult → List Nat
  | [] => []
  | .parsed p :: rest => p :: scrape_properties rest
  | .failed :: rest => scrape_properties rest
  | .rateLimited :: _ => []

end ScraperClass

namespace Scrapers

/-- Embedding of IdealistaScraper.scrape_properties of
src/src/scrapers/idealista_scraper.py.  _fetch_property catches parse errors
(yielding None, skipped), but RateLimitException raised by
BaseHTTPClient.request is not caught anywhere in this class, so it escapes the
consumption loop and the whole call raises, dropping the collected list. -/
def scrape_properties : List CompletionResult → Except RateLimitError (List Nat)
  | [] => .ok []
  | .parsed p :: rest =>
    match scrape_properties rest with
    | .ok l => .ok (p :: l)
    | .error e => .error e
  | .failed :: rest => scrape_properties rest
  | .rateLimited :: _ => .error .raised

/-- Embedding of the max-pages cap of IdealistaScraper.scrape_search:
if total_pages > self.max_pages: total_pages = self.max_pages. -/
def capped_total_pages (total_pages max_pages : Nat) : Nat :=
  if max_pages < total_pages then max_pages else total_pages

/-- Number of result pages scrape_search requests in total: the first page,
plus one request per page in range(2, total_pages + 1) after capping. -/
def pages_fetched (total_pages max_pages : Nat) : Nat :=
  1 + (capped_total_pages total_pages max_pages + 1 - 2)

end Scrapers

/-- Embedding of the Python substitutions .replace(".", "").replace(",", "")
that strip locale thousands separators from the matched count text. -/
def stripSeparators (s : String) : String :=
  String.mk (s.data.filter fun c => !(c == '.') && !(c == ','))

/-- Embedding of int() applied to a decimal digit string. -/
def digitsToNat (cs : List Char) : Nat :=
  cs.foldl (fun acc c => acc * 10 + (c.toNat - 48)) 0

namespace IdealistaParser

/-- Embedding of IdealistaParser.get_total_pages of
src/src/parsers/idealista_parser.py, as a function of the numeric text matched
by the regex in the h1 heading and of num_results_page:
math.ceil(int(text with separators stripped) / num_results_page). -/
def get_total_pages (total_results_text : String) (num_results_page : Nat) : Nat :=
  (Int.ceil ((digitsToNat (stripSeparators total_results_text).data : ℚ) /
    (num_results_page : ℚ))).toNat

end IdealistaParser

/-- Embedding of the loop of chunks in src/src/utils.py
(for i in range(0, len(lst), n): yield lst[i : i + n]).  fuel bounds the
number of loop iterations; the top-level call passes the list length, which is
enough for every positive n since each iteration consumes at least one
element.  Python raises ValueError on step n = 0; that case is out of the
domain of the embedded claims. -/
def chunksGo {α : Type} (n : Nat) : Nat → List α → List (List α)
  | _, [] => []
  | 0, _ :: _ => []
  | fuel + 1, x :: xs => ((x :: xs).take n) :: chunksGo n fuel ((x :: xs).drop n)

/-- Embedding of chunks in src/src/utils.py. -/
def chunks {α : Type} (lst : List α) (n : Nat) : List (List α) :=
  chunksGo n lst.length lst

/-- Observable behaviour of one chunk iteration of idealista_to_gcp_pipeline
in src/src/flows/idealista_flow.py: the wall-clock time elapsed since
start_time when the pre-chunk budget check runs, the number of properties the
chunk scrape returned (len(property_data)), and whether the
clean/parquet/upload/load block ran without raising. -/
structure ChunkRun where
  elapsed : ℚ
  successes : Nat
  upload_ok : Bool
deriving DecidableEq

namespace IdealistaFlow

/-- Default of max_execution_time in idealista_to_gcp_pipeline: 18 hours. -/
def max_execution_time_default : Nat := 18 * 60 * 60

/-- Embedding of the chunk loop of idealista_to_gcp_pipeline.  For each chunk
in order: if elapsed > max_execution_time, break; if the scrape returned no
properties, continue; if the upload block raised, the except branch breaks;
otherwise processed_properties += len(property_data).  The result is the pair
(number of chunks whose processing was started, final processed_properties). -/
def pipeline_loop (max_execution_time : ℚ) : List ChunkRun → Nat × Nat
  | [] => (0, 0)
  | c :: rest =>
    if max_execution_time < c.elapsed then (0, 0)
    else if c.successes = 0 then
      let r := pipeline_loop max_execution_time rest
      (r.1 + 1, r.2)
    else if c.upload_ok then
      let r := pipeline_loop max_execution_time rest
      (r.1 + 1, r.2 + c.successes)
    else (1, 0)

end IdealistaFlow

/-! Theorems -/

/-- C6: for every attempt count a and every jitter draw j in [0.5, 1.5), the
backoff delay of BaseHTTPClient._get_backoff_time with the default
initial_backoff = 32 and max_backoff = 64 equals min(32 * 2 ^ a, 64) * j and
lies within [0.5 * base, 1.5 * base] for base = min(32 * 2 ^ a, 64); the
function is pure in (attempt, jitter). -/
theorem backoff_delay_formula_and_bounds (a : Nat) (j : ℚ)
    (h1 : 1 / 2 ≤ j) (h2 : j < 3 / 2) :
    BaseHTTPClient.get_backoff_time a 32 64 j = min ((32 : ℚ) * 2 ^ a) 64 * j ∧
    1 / 2 * min ((32 : ℚ) * 2 ^ a) 64 ≤ BaseHTTPClient.get_backoff_time a 32 64 j ∧
    BaseHTTPClient.get_backoff_time a 32 64 j ≤ 3 / 2 * min ((32 : ℚ) * 2 ^ a) 64 := by
  have hbase : (0 : ℚ) ≤ min ((32 : ℚ) * 2 ^ a) 64 := by
    apply le_min
    · positivity
    · norm_num
  refine ⟨rfl, ?_, ?_⟩
  · calc 1 / 2 * min ((32 : ℚ) * 2 ^ a) 64
        = min ((32 : ℚ) * 2 ^ a) 64 * (1 / 2) := by ring
      _ ≤ min ((32 : ℚ) * 2 ^ a) 64 * j := by
          exact mul_le_mul_of_nonneg_left h1 hbase
      _ = BaseHTTPClient.get_backoff_time a 32 64 j := rfl
  · calc BaseHTTPClient.get_backoff_time a 32 64 j
        = min ((32 : ℚ) * 2 ^ a) 64 * j := rfl
      _ ≤ min ((32 : ℚ) * 2 ^ a) 64 * (3 / 2) := by
          exact mul_le_mul_of_nonneg_left h2.le hbase
      _ = 3 / 2 * min ((32 : ℚ) * 2 ^ a) 64 := by ring

/-- C6 witness: the bounds instantiated at attempt 0 with jitter 1. -/
theorem backoff_delay_formula_and_bounds_witness :
    BaseHTTPClient.get_backoff_time 0 32 64 1 = min ((32 : ℚ) * 2 ^ 0) 64 * 1 ∧
    1 / 2 * min ((32 : ℚ) * 2 ^ 0) 64 ≤ BaseHTTPClient.get_backoff_time 0 32 64 1 ∧
    BaseHTTPClient.get_backoff_time 0 32 64 1 ≤ 3 / 2 * min ((32 : ℚ) * 2 ^ 0) 64 :=
  backoff_delay_formula_and_bounds 0 1 (by norm_num) (by norm_num)

/-- C7: for both token-bucket implementations, a consume(1) call refills for
the elapsed time, returns true and decrements the refilled count by exactly 1
when the refilled count is at least 1, and otherwise returns false leaving the
state unchanged apart from the refill; in both cases the fill rate is
unchanged and the clock field becomes the current reading. -/
theorem consume_one_grants_iff_refilled_token (s : RateLimiter) (b : TokenBucket)
    (now : ℚ) :
    (((s.consume now 1).2 = true ↔
        1 ≤ s.tokens + (now - s.last_time) * s.fill_rate) ∧
      (s.consume now 1).1.tokens =
        (if 1 ≤ s.tokens + (now - s.last_time) * s.fill_rate then
          s.tokens + (now - s.last_time) * s.fill_rate - 1
        else s.tokens + (now - s.last_time) * s.fill_rate) ∧
      (s.consume now 1).1.fill_rate = s.fill_rate ∧
      (s.consume now 1).1.last_time = now) ∧
    (((b.consume now 1).2 = true ↔
        1 ≤ min b.capacity (b.tokens + b.fill_rate * (now - b.timestamp))) ∧
      (b.consume now 1).1.tokens =
        (if 1 ≤ min b.capacity (b.tokens + b.fill_rate * (now - b.timestamp)) then
          min b.capacity (b.tokens + b.fill_rate * (now - b.timestamp)) - 1
        else min b.capacity (b.tokens + b.fill_rate * (now - b.timestamp))) ∧
      (b.consume now 1).1.capacity = b.capacity ∧
      (b.consume now 1).1.fill_rate = b.fill_rate ∧
      (b.consume now 1).1.timestamp = now) := by
  constructor
  · simp only [RateLimiter.consume]
    split_ifs with h
    · simp [h]
    · simp [h]
  · simp only [TokenBucket.consume, TokenBucket.get_tokens]
    split_ifs with h
    · simp [h]
    · simp [h]

/-- C2 counterexample: the RateLimiter of
src/src/repositories/http/rate_limiter.py
refills without any cap.  A limiter built with the default configuration of
BaseHTTPClient (1 token, fill rate 1/27) that is left idle for 54 seconds and
then admits one request ends with 2 tokens, above the bucket size 1 it was
created with, even though it just consumed a token; so the refill is not
capped at the capacity and the token count does exceed it. -/
theorem rate_limiter_refill_uncapped_counterexample :
    ((RateLimiter.consume ⟨1, 1 / 27, 0⟩ 54 1).1.tokens = 2 ∧
      (RateLimiter.consume ⟨1, 1 / 27, 0⟩ 54 1).2 = true ∧
      1 < (RateLimiter.consume ⟨1, 1 / 27, 0⟩ 54 1).1.tokens) := by
  norm_num [RateLimiter.consume]

/-- Capacity is unchanged by one TokenBucket.consume call. -/
theorem TokenBucket.consume_capacity (s : TokenBucket) (now amount : ℚ) :
    (s.consume now amount).1.capacity = s.capacity := by
  simp only [TokenBucket.consume, TokenBucket.get_tokens]
  split_ifs <;> rfl

/-- One TokenBucket.consume call with a nonnegative amount leaves at most
capacity tokens, whatever the starting token count. -/
theorem TokenBucket.consume_tokens_le (s : TokenBucket) (now amount : ℚ)
    (h : 0 ≤ amount) : (s.consume now amount).1.tokens ≤ s.capacity := by
  simp only [TokenBucket.consume, TokenBucket.get_tokens]
  split_ifs with hc
  · have : min s.capacity (s.tokens + s.fill_rate * (now - s.timestamp)) ≤
        s.capacity := min_le_left _ _
    simp only
    linarith
  · exact min_le_left _ _

/-- C2 amended: the TokenBucket of src/src/scraper_class.py does cap every
refill at capacity, so over every sequence of consume calls with nonnegative
amounts the token count never exceeds the capacity (the RateLimiter of
src/src/repositories/http/rate_limiter.py has no such cap, see the
counterexample). -/
theorem token_bucket_never_exceeds_capacity (s : TokenBucket)
    (steps : List (ℚ × ℚ)) (hs : s.tokens ≤ s.capacity)
    (hamounts : ∀ p ∈ steps, 0 ≤ p.2) :
    (TokenBucket.runConsume s steps).tokens ≤ (TokenBucket.runConsume s steps).capacity := by
  induction steps generalizing s with
  | nil => simpa [TokenBucket.runConsume] using hs
  | cons p rest ih =>
    rw [TokenBucket.runConsume]
    apply ih
    · rw [TokenBucket.consume_capacity]
      exact TokenBucket.consume_tokens_le s p.1 p.2 (hamounts p (by simp))
    · intro q hq
      exact hamounts q (by simp [hq])

/-- C2 amended witness: a bucket of capacity 1 run through three admissions
spaced 27 seconds apart stays within its capacity. -/
theorem token_bucket_never_exceeds_capacity_witness :
    (TokenBucket.runConsume ⟨1, 1, 1 / 27, 0⟩ [(27, 1), (54, 1), (108, 1)]).tokens ≤
      (TokenBucket.runConsume ⟨1, 1, 1 / 27, 0⟩ [(27, 1), (54, 1), (108, 1)]).capacity :=
  token_bucket_never_exceeds_capacity ⟨1, 1, 1 / 27, 0⟩ [(27, 1), (54, 1), (108, 1)]
    (by norm_num) (by intro p hp; fin_cases hp <;> norm_num)

/-- C1 counterexample: the long cooldown is keyed to the loop attempt index,
not to rate-limit encounters.  With the default max_retries = 3, a call whose
first attempt is a transient failure and whose second attempt is its FIRST
rate-limit signal performs no cooldown sleep at all: _handle_rate_limit sees
retry_count = 1 and raises RateLimitException at once, after only 2 requests.
The claim predicts one 12-hour cooldown sleep followed by one more request for
that first rate-limit encounter.  The same holds for make_request in
src/src/scraper_class.py. -/
theorem first_rate_limit_no_cooldown_counterexample :
    ((BaseHTTPClient.request 3 "u"
        (fun i => if i = 0 then .transient else .rateLimit) ⟨none, none⟩).outcome =
        .rateLimited ∧
      (BaseHTTPClient.request 3 "u"
        (fun i => if i = 0 then .transient else .rateLimit) ⟨none, none⟩).requests = 2 ∧
      (BaseHTTPClient.request 3 "u"
        (fun i => if i = 0 then .transient else .rateLimit) ⟨none, none⟩).cooldownSleeps = 0) ∧
    ((ScraperClass.make_request 3 "u"
        (fun i => if i = 0 then .transient else .rateLimit) ⟨none, none⟩).outcome =
        .rateLimited ∧
      (ScraperClass.make_request 3 "u"
        (fun i => if i = 0 then .transient else .rateLimit) ⟨none, none⟩).requests = 2 ∧
      (ScraperClass.make_request 3 "u"
        (fun i => if i = 0 then .transient else .rateLimit) ⟨none, none⟩).cooldownSleeps = 0) := by
  decide

/-- C1 amended: the 12-hour cooldown is applied exactly when a rate-limit
signal arrives on the very first attempt of the call (loop index 0); a
rate-limit signal on any later attempt aborts at once with RateLimited, even
when it is the first rate-limit of the call.  In particular a call whose first
two attempts both return rate-limit statuses sleeps the cooldown once, makes
exactly 2 requests with no backoff sleep, and returns RateLimited; both
BaseHTTPClient.request and ScraperClass.make_request behave this way. -/
theorem rate_limit_cooldown_on_first_attempt_only (mr : Nat) (hmr : 1 ≤ mr)
    (url : String) (script : Nat → AttemptResult) (s : ClientState)
    (h0 : script 0 = .rateLimit) (h1 : script 1 = .rateLimit) :
    ((BaseHTTPClient.request mr url script s).outcome = .rateLimited ∧
      (BaseHTTPClient.request mr url script s).requests = 2 ∧
      (BaseHTTPClient.request mr url script s).cooldownSleeps = 1 ∧
      (BaseHTTPClient.request mr url script s).backoffSleeps = 0) ∧
    ((ScraperClass.make_request mr url script s).outcome = .rateLimited ∧
      (ScraperClass.make_request mr url script s).requests = 2 ∧
      (ScraperClass.make_request mr url script s).cooldownSleeps = 1 ∧
      (ScraperClass.make_request mr url script s).backoffSleeps = 0) := by
  obtain ⟨m, rfl⟩ : ∃ m, mr = m + 1 := ⟨mr - 1, by omega⟩
  have hfuel : m + 1 + 1 = m + 2 := rfl
  constructor
  · rw [BaseHTTPClient.request]
    simp [BaseHTTPClient.requestLoop, h0, h1]
  · rw [ScraperClass.make_request]
    simp [ScraperClass.makeRequestLoop, h0, h1]

/-- C1 amended witness: two consecutive rate-limit responses with
max_retries = 1. -/
theorem rate_limit_cooldown_on_first_attempt_only_witness :
    ((BaseHTTPClient.request 1 "u" (fun _ => .rateLimit) ⟨none, none⟩).outcome =
        .rateLimited ∧
      (BaseHTTPClient.request 1 "u" (fun _ => .rateLimit) ⟨none, none⟩).requests = 2 ∧
      (BaseHTTPClient.request 1 "u" (fun _ => .rateLimit) ⟨none, none⟩).cooldownSleeps = 1 ∧
      (BaseHTTPClient.request 1 "u" (fun _ => .rateLimit) ⟨none, none⟩).backoffSleeps = 0) ∧
    ((ScraperClass.make_request 1 "u" (fun _ => .rateLimit) ⟨none, none⟩).outcome =
        .rateLimited ∧
      (ScraperClass.make_request 1 "u" (fun _ => .rateLimit) ⟨none, none⟩).requests = 2 ∧
      (ScraperClass.make_request 1 "u" (fun _ => .rateLimit) ⟨none, none⟩).cooldownSleeps = 1 ∧
      (ScraperClass.make_request 1 "u" (fun _ => .rateLimit) ⟨none, none⟩).backoffSleeps = 0) :=
  rate_limit_cooldown_on_first_attempt_only 1 (by norm_num) "u" (fun _ => .rateLimit)
    ⟨none, none⟩ rfl rfl

/-- Helper: on an all-transient script, each round of the BaseHTTPClient loop
makes one request, waits for one token and sleeps one backoff, for every
remaining iteration, and the call ends in failure. -/
theorem base_loop_all_transient (url : String) (script : Nat → AttemptResult)
    (h : ∀ i, script i = .transient) (fuel : Nat) :
    ∀ (i : Nat) (s : ClientState),
      (BaseHTTPClient.requestLoop url script fuel i s).outcome = .failure ∧
      (BaseHTTPClient.requestLoop url script fuel i s).requests = fuel ∧
      (BaseHTTPClient.requestLoop url script fuel i s).tokenWaits = fuel ∧
      (BaseHTTPClient.requestLoop url script fuel i s).backoffSleeps = fuel ∧
      (BaseHTTPClient.requestLoop url script fuel i s).cooldownSleeps = 0 := by
  induction fuel with
  | zero =>
    intro i s
    simp [BaseHTTPClient.requestLoop]
  | succ n ih =>
    intro i s
    obtain ⟨ho, hr, ht, hb, hc⟩ := ih (i + 1) (updateReferer s)
    simp [BaseHTTPClient.requestLoop, h i, ho, hr, ht, hb, hc]

/-- Helper: on an all-transient script, the make_request loop of
src/src/scraper_class.py sleeps one backoff per iteration except the last one,
where retry_count < MAX_RETRIES fails and the call returns None without
sleeping. -/
theorem make_loop_all_transient (url : String) (script : Nat → AttemptResult)
    (mr : Nat) (h : ∀ i, script i = .transient) (fuel : Nat) :
    ∀ (i : Nat) (s : ClientState), i + fuel = mr + 1 →
      (ScraperClass.makeRequestLoop url script mr fuel i s).outcome = .failure ∧
      (ScraperClass.makeRequestLoop url script mr fuel i s).requests = fuel ∧
      (ScraperClass.makeRequestLoop url script mr fuel i s).tokenWaits = fuel ∧
      (ScraperClass.makeRequestLoop url script mr fuel i s).backoffSleeps = fuel - 1 ∧
      (ScraperClass.makeRequestLoop url script mr fuel i s).cooldownSleeps = 0 := by
  induction fuel with
  | zero =>
    intro i s hif
    simp [ScraperClass.makeRequestLoop]
  | succ n ih =>
    intro i s hif
    by_cases hlt : i < mr
    · have hn : 1 ≤ n := by omega
      obtain ⟨ho, hr, ht, hb, hc⟩ := ih (i + 1) (updateReferer s) (by omega)
      simp only [ScraperClass.makeRequestLoop, h i, if_pos hlt]
      refine ⟨ho, by simp [hr], by simp [ht], by simp [hb]; omega, by simp [hc]⟩
    · have hn : n = 0 := by omega
      subst hn
      simp [ScraperClass.makeRequestLoop, h i, if_neg hlt]

/-- C5 counterexample: with the default max_retries = 3, a call of
BaseHTTPClient.request whose every attempt fails transiently sleeps a backoff
4 times, once after EVERY attempt including the final one (the source calls
_wait_before_retry unconditionally), while the claim allows a backoff sleep
only while attempt < 3. -/
theorem backoff_sleep_after_final_attempt_counterexample :
    (BaseHTTPClient.request 3 "u" (fun _ => .transient) ⟨none, none⟩).backoffSleeps = 4 ∧
    (BaseHTTPClient.request 3 "u" (fun _ => .transient) ⟨none, none⟩).requests = 4 ∧
    (BaseHTTPClient.request 3 "u" (fun _ => .transient) ⟨none, none⟩).outcome = .failure := by
  decide

/-- C5 amended: on a call whose every attempt yields a transient failure, both
clients re-acquire a rate-limiter token before each attempt, make exactly
max_retries + 1 requests, never sleep the rate-limit cooldown, and return the
TransientFailure outcome (None) rather than raising; make_request of
src/src/scraper_class.py sleeps a backoff only while attempt < max_retries
(so max_retries sleeps), while BaseHTTPClient.request sleeps a backoff after
every attempt including the last (so max_retries + 1 sleeps). -/
theorem transient_exhaustion_returns_none (mr : Nat) (url : String)
    (script : Nat → AttemptResult) (s : ClientState)
    (h : ∀ i, script i = .transient) :
    ((BaseHTTPClient.request mr url script s).outcome = .failure ∧
      (BaseHTTPClient.request mr url script s).requests = mr + 1 ∧
      (BaseHTTPClient.request mr url script s).tokenWaits = mr + 1 ∧
      (BaseHTTPClient.request mr url script s).backoffSleeps = mr + 1 ∧
      (BaseHTTPClient.request mr url script s).cooldownSleeps = 0) ∧
    ((ScraperClass.make_request mr url script s).outcome = .failure ∧
      (ScraperClass.make_request mr url script s).requests = mr + 1 ∧
      (ScraperClass.make_request mr url script s).tokenWaits = mr + 1 ∧
      (ScraperClass.make_request mr url script s).backoffSleeps = mr ∧
      (ScraperClass.make_request mr url script s).cooldownSleeps = 0) := by
  constructor
  · exact base_loop_all_transient url script h (mr + 1) 0 s
  · have := make_loop_all_transient url script mr h (mr + 1) 0 s (by omega)
    simpa [ScraperClass.make_request] using this

/-- C5 amended witness: an all-transient call with max_retries = 3. -/
theorem transient_exhaustion_returns_none_witness :
    ((BaseHTTPClient.request 3 "u" (fun _ => .transient) ⟨none, none⟩).outcome = .failure ∧
      (BaseHTTPClient.request 3 "u" (fun _ => .transient) ⟨none, none⟩).requests = 4 ∧
      (BaseHTTPClient.request 3 "u" (fun _ => .transient) ⟨none, none⟩).tokenWaits = 4 ∧
      (BaseHTTPClient.request 3 "u" (fun _ => .transient) ⟨none, none⟩).backoffSleeps = 4 ∧
      (BaseHTTPClient.request 3 "u" (fun _ => .transient) ⟨none, none⟩).cooldownSleeps = 0) ∧
    ((ScraperClass.make_request 3 "u" (fun _ => .transient) ⟨none, none⟩).outcome = .failure ∧
      (ScraperClass.make_request 3 "u" (fun _ => .transient) ⟨none, none⟩).requests = 4 ∧
      (ScraperClass.make_request 3 "u" (fun _ => .transient) ⟨none, none⟩).tokenWaits = 4 ∧
      (ScraperClass.make_request 3 "u" (fun _ => .transient) ⟨none, none⟩).backoffSleeps = 3 ∧
      (ScraperClass.make_request 3 "u" (fun _ => .transient) ⟨none, none⟩).cooldownSleeps = 0) :=
  transient_exhaustion_returns_none 3 "u" (fun _ => .transient) ⟨none, none⟩ (fun _ => rfl)

/-- C3 counterexample: in scrape_properties of src/src/scraper_class.py the
RateLimitException is caught, logged and turned into a break, so a batch that
hit the hard-stop returns a plain list indistinguishable from that of a batch
that only had ordinary failures: the hard-stop is silently dropped rather than
propagated as a distinct signal. -/
theorem scraper_class_drops_rate_limit_counterexample :
    ScraperClass.scrape_properties [.parsed 1, .rateLimited, .parsed 2] = [1] ∧
    ScraperClass.scrape_properties [.parsed 1, .failed] = [1] := by
  decide

/-- C3 amended: both batch consumers stop consuming completions at the first
RateLimited completion (everything after it is ignored), but only
scrape_properties of src/src/scrapers/idealista_scraper.py propagates the
hard-stop to the caller as a distinct signal (the uncaught RateLimitException);
scrape_properties of src/src/scraper_class.py swallows it and returns the
partial list collected so far. -/
theorem rate_limit_stops_batch_and_propagation_split (pre post : List CompletionResult)
    (h : CompletionResult.rateLimited ∉ pre) :
    ScraperClass.scrape_properties (pre ++ .rateLimited :: post) =
      ScraperClass.scrape_properties pre ∧
    Scrapers.scrape_properties (pre ++ .rateLimited :: post) =
      .error .raised := by
  induction pre with
  | nil => simp [ScraperClass.scrape_properties, Scrapers.scrape_properties]
  | cons c rest ih =>
    have hc : c ≠ .rateLimited := fun e => h (by simp [e])
    have hrest : CompletionResult.rateLimited ∉ rest := fun m => h (List.mem_cons_of_mem _ m)
    obtain ⟨h1, h2⟩ := ih hrest
    cases c with
    | parsed p =>
      simp [ScraperClass.scrape_properties, Scrapers.scrape_properties, h1, h2]
    | failed =>
      simp [ScraperClass.scrape_properties, Scrapers.scrape_properties, h1, h2]
    | rateLimited => exact absurd rfl hc

/-- C3 amended witness: one parsed completion, then the hard-stop, then a
completion that is never consumed. -/
theorem rate_limit_stops_batch_and_propagation_split_witness :
    ScraperClass.scrape_properties ([.parsed 1] ++ .rateLimited :: [.parsed 2]) =
      ScraperClass.scrape_properties [.parsed 1] ∧
    Scrapers.scrape_properties ([.parsed 1] ++ .rateLimited :: [.parsed 2]) =
      .error .raised :=
  rate_limit_stops_batch_and_propagation_split [.parsed 1] [.parsed 2] (by decide)

/-- C8 counterexample: processed_properties accumulates len(property_data),
the number of properties the chunk scrape actually returned, not the number of
items attempted.  With a budget of 10 expiring before the third chunk, two
30-item chunks that return 25 and 28 properties report 53, not the 60
attempted items the claim states. -/
theorem pipeline_reports_successes_not_attempts_counterexample :
    IdealistaFlow.pipeline_loop 10 [⟨0, 25, true⟩, ⟨5, 28, true⟩, ⟨11, 0, true⟩] =
      (2, 53) ∧ (53 : Nat) ≠ 60 := by
  constructor
  · norm_num [IdealistaFlow.pipeline_loop]
  · decide

/-- C8 amended: the pipeline checks elapsed wall-clock time against the budget
before starting each chunk and breaks without error once it is exceeded, so
when the budget expires after chunk 2 exactly 2 chunks are processed and no
later chunk is started; the reported processed count is the number of
properties successfully scraped in those 2 chunks (which equals the 60
attempted items only when every item of both 30-item chunks succeeds). -/
theorem pipeline_budget_stops_after_two_chunks (budget : ℚ) (c1 c2 c3 : ChunkRun)
    (rest : List ChunkRun) (h1 : c1.elapsed ≤ budget) (h2 : c2.elapsed ≤ budget)
    (h3 : budget < c3.elapsed) (hu1 : c1.upload_ok = true) (hu2 : c2.upload_ok = true) :
    IdealistaFlow.pipeline_loop budget (c1 :: c2 :: c3 :: rest) =
      (2, c1.successes + c2.successes) ∧
    IdealistaFlow.pipeline_loop budget (c3 :: rest) = (0, 0) := by
  have hn1 : ¬budget < c1.elapsed := not_lt.mpr h1
  have hn2 : ¬budget < c2.elapsed := not_lt.mpr h2
  have base : IdealistaFlow.pipeline_loop budget (c3 :: rest) = (0, 0) := by
    rw [IdealistaFlow.pipeline_loop, if_pos h3]
  have hr2 : IdealistaFlow.pipeline_loop budget (c2 :: c3 :: rest) = (1, c2.successes) := by
    rw [IdealistaFlow.pipeline_loop, if_neg hn2]
    by_cases hs2 : c2.successes = 0
    · simp [hs2, base]
    · simp [hs2, hu2, base]
  refine ⟨?_, base⟩
  rw [IdealistaFlow.pipeline_loop, if_neg hn1]
  by_cases hs1 : c1.successes = 0
  · simp [hs1, hr2]
  · simp only [hs1, if_false, hu1, if_true, hr2]
    refine Prod.ext rfl ?_
    simp [Nat.add_comm]

/-- C8 amended witness: two fully successful 30-item chunks under a budget
that expires before the third chunk report exactly 60 properties. -/
theorem pipeline_budget_stops_after_two_chunks_witness :
    IdealistaFlow.pipeline_loop 10 [⟨0, 30, true⟩, ⟨5, 30, true⟩, ⟨11, 0, true⟩] =
      (2, 60) ∧
    IdealistaFlow.pipeline_loop 10 [⟨11, 0, true⟩] = (0, 0) :=
  pipeline_budget_stops_after_two_chunks 10 ⟨0, 30, true⟩ ⟨5, 30, true⟩ ⟨11, 0, true⟩ []
    (by norm_num) (by norm_num) (by norm_num) rfl rfl

/-- Helper: the chunk loop on an empty list yields no chunk, for any fuel. -/
theorem chunksGo_nil {α : Type} (n fuel : Nat) : chunksGo n fuel ([] : List α) = [] := by
  cases fuel <;> rfl

/-- Helper: concatenating the chunks gives back the list. -/
theorem chunksGo_flatten {α : Type} (n : Nat) (hn : 0 < n) :
    ∀ (fuel : Nat) (l : List α), l.length ≤ fuel → (chunksGo n fuel l).flatten = l := by
  intro fuel
  induction fuel with
  | zero =>
    intro l hl
    have : l = [] := List.eq_nil_of_length_eq_zero (Nat.le_zero.mp hl)
    subst this
    simp [chunksGo]
  | succ m ih =>
    intro l hl
    cases l with
    | nil => simp [chunksGo]
    | cons x xs =>
      have hl2 : xs.length + 1 ≤ m + 1 := by simpa using hl
      have hdrop : ((x :: xs).drop n).length ≤ m := by
        rw [List.length_drop]
        simp only [List.length_cons]
        omega
      simp only [chunksGo, List.flatten_cons]
      rw [ih _ hdrop, List.take_append_drop]

/-- Helper: the number of chunks is the ceiling of length / n. -/
theorem chunksGo_length {α : Type} (n : Nat) (hn : 0 < n) :
    ∀ (fuel : Nat) (l : List α), l.length ≤ fuel →
      (chunksGo n fuel l).length = (l.length + n - 1) / n := by
  intro fuel
  induction fuel with
  | zero =>
    intro l hl
    have : l = [] := List.eq_nil_of_length_eq_zero (Nat.le_zero.mp hl)
    subst this
    simp [chunksGo, Nat.div_eq_of_lt (by omega : n - 1 < n)]
  | succ m ih =>
    intro l hl
    cases l with
    | nil => simp [chunksGo, Nat.div_eq_of_lt (by omega : n - 1 < n)]
    | cons x xs =>
      have hl2 : xs.length + 1 ≤ m + 1 := by simpa using hl
      have hdrop : ((x :: xs).drop n).length ≤ m := by
        rw [List.length_drop]
        simp only [List.length_cons]
        omega
      simp only [chunksGo, List.length_cons, ih _ hdrop, List.length_drop,
        List.length_cons]
      by_cases hcase : xs.length + 1 ≤ n
      · have h0 : xs.length + 1 - n = 0 := by omega
        rw [h0]
        rw [Nat.div_eq_of_lt (by omega : 0 + n - 1 < n)]
        have : (xs.length + 1 + n - 1) / n = 1 := by
          apply Nat.div_eq_of_lt_le
          · omega
          · have : (1 + 1) * n = n + n := by ring
            omega
        omega
      · have e2 : xs.length + 1 - n + n - 1 = xs.length := by omega
        have e3 : xs.length + 1 + n - 1 = xs.length + n := by omega
        rw [e2, e3, Nat.add_div_right _ hn]

/-- Helper: every chunk before the last one has length exactly n. -/
theorem chunksGo_dropLast {α : Type} (n : Nat) (hn : 0 < n) :
    ∀ (fuel : Nat) (l : List α), l.length ≤ fuel →
      ∀ c ∈ (chunksGo n fuel l).dropLast, c.length = n := by
  intro fuel
  induction fuel with
  | zero =>
    intro l hl c hc
    have : l = [] := List.eq_nil_of_length_eq_zero (Nat.le_zero.mp hl)
    subst this
    simp [chunksGo] at hc
  | succ m ih =>
    intro l hl c hc
    cases l with
    | nil => simp [chunksGo] at hc
    | cons x xs =>
      have hl2 : xs.length + 1 ≤ m + 1 := by simpa using hl
      have hdrop : ((x :: xs).drop n).length ≤ m := by
        rw [List.length_drop]
        simp only [List.length_cons]
        omega
      simp only [chunksGo] at hc
      by_cases hrest : chunksGo n m ((x :: xs).drop n) = []
      · rw [hrest] at hc
        simp at hc
      · rw [List.dropLast_cons_of_ne_nil hrest, List.mem_cons] at hc
        rcases hc with hc | hc
        · have hd : (x :: xs).drop n ≠ [] := by
            intro e
            rw [e, chunksGo_nil] at hrest
            exact hrest rfl
          have hlen : n ≤ (x :: xs).length := by
            by_contra hle
            push_neg at hle
            exact hd (List.drop_eq_nil_of_le hle.le)
          rw [hc, List.length_take]
          omega
        · exact ih _ hdrop c hc

/-- Helper: every chunk has at most n elements and is nonempty. -/
theorem chunksGo_mem {α : Type} (n : Nat) (hn : 0 < n) :
    ∀ (fuel : Nat) (l : List α), ∀ c ∈ chunksGo n fuel l, c.length ≤ n ∧ c ≠ [] := by
  intro fuel
  induction fuel with
  | zero =>
    intro l c hc
    cases l <;> simp [chunksGo] at hc
  | succ m ih =>
    intro l c hc
    cases l with
    | nil => simp [chunksGo] at hc
    | cons x xs =>
      simp only [chunksGo, List.mem_cons] at hc
      rcases hc with hc | hc
      · subst hc
        constructor
        · simp [List.length_take]
        · obtain ⟨k, rfl⟩ : ∃ k, n = k + 1 := ⟨n - 1, by omega⟩
          simp [List.take_cons]
      · exact ih _ c hc

/-- C9: for every list and every chunk size n > 0, chunks of src/src/utils.py
yields exactly ceil(length / n) chunks whose concatenation in order equals the
input, every chunk before the last has exactly n elements, and every chunk is
nonempty with at most n elements. -/
theorem chunks_partition {α : Type} (lst : List α) (n : Nat) (hn : 0 < n) :
    (chunks lst n).flatten = lst ∧
    (chunks lst n).length = (lst.length + n - 1) / n ∧
    (∀ c ∈ (chunks lst n).dropLast, c.length = n) ∧
    (∀ c ∈ chunks lst n, c.length ≤ n ∧ c ≠ []) :=
  ⟨chunksGo_flatten n hn lst.length lst le_rfl,
   chunksGo_length n hn lst.length lst le_rfl,
   chunksGo_dropLast n hn lst.length lst le_rfl,
   chunksGo_mem n hn lst.length lst⟩

/-- C9 witness: 100 items with chunk size 30 concatenate back to the input
and form exactly 4 chunks of sizes 30, 30, 30, 10. -/
theorem chunks_partition_witness :
    (chunks (List.range 100) 30).flatten = List.range 100 ∧
    (chunks (List.range 100) 30).length = 4 ∧
    (chunks (List.range 100) 30).map List.length = [30, 30, 30, 10] := by
  have h := chunks_partition (List.range 100) 30 (by norm_num)
  refine ⟨h.1, ?_, ?_⟩
  · rw [h.2.1]
    simp
  · decide

/-- Helper: the rational ceiling of N / r agrees with the natural-number
formula (N + r - 1) / r. -/
theorem ceil_nat_div (N r : Nat) (hr : 0 < r) :
    (Int.ceil ((N : ℚ) / (r : ℚ))).toNat = (N + r - 1) / r := by
  have hd := Nat.div_add_mod (N + r - 1) r
  have hmlt : (N + r - 1) % r < r := Nat.mod_lt _ hr
  have key1 : N ≤ r * ((N + r - 1) / r) := by omega
  have key2 : r * ((N + r - 1) / r) < N + r := by omega
  have hrQ : (0 : ℚ) < (r : ℚ) := by exact_mod_cast hr
  have h1 : (N : ℚ) / r ≤ (((N + r - 1) / r : ℕ) : ℚ) := by
    rw [div_le_iff₀ hrQ]
    have hc : (N : ℚ) ≤ (r : ℚ) * (((N + r - 1) / r : ℕ) : ℚ) := by exact_mod_cast key1
    linarith
  have h2 : (((N + r - 1) / r : ℕ) : ℚ) - 1 < (N : ℚ) / r := by
    rw [lt_div_iff₀ hrQ]
    have hc2 : (r : ℚ) * (((N + r - 1) / r : ℕ) : ℚ) < (N : ℚ) + r := by
      exact_mod_cast key2
    nlinarith [hc2]
  have hceil : Int.ceil ((N : ℚ) / (r : ℚ)) = (((N + r - 1) / r : ℕ) : ℤ) := by
    rw [Int.ceil_eq_iff]
    constructor
    · push_cast
      push_cast at h2
      exact h2
    · push_cast
      push_cast at h1
      exact h1
  rw [hceil, Int.toNat_natCast]


/-- C4: for every numeric heading text and every resultsPerPage r > 0,
get_total_pages of the parser computes totalPages = ceil(N / r) for N the
count with thousands separators stripped (given here by the equivalent
natural-number formula (N + r - 1) / r), and scrape_search then requests
exactly min(totalPages, maxPages) result pages, so the pages fetched are
capped at maxPages. -/
theorem pagination_ceil_and_cap (text : String) (r maxPages : Nat) (hr : 0 < r)
    (hm : 1 ≤ maxPages) (hN : 1 ≤ digitsToNat (stripSeparators text).data) :
    IdealistaParser.get_total_pages text r =
      (digitsToNat (stripSeparators text).data + r - 1) / r ∧
    Scrapers.pages_fetched (IdealistaParser.get_total_pages text r) maxPages =
      min (IdealistaParser.get_total_pages text r) maxPages := by
  have hmain : IdealistaParser.get_total_pages text r =
      (digitsToNat (stripSeparators text).data + r - 1) / r :=
    ceil_nat_div (digitsToNat (stripSeparators text).data) r hr
  refine ⟨hmain, ?_⟩
  have hq1 : 1 ≤ IdealistaParser.get_total_pages text r := by
    rw [hmain]
    rw [Nat.one_le_div_iff hr]
    omega
  simp only [Scrapers.pages_fetched, Scrapers.capped_total_pages]
  by_cases hlt : maxPages < IdealistaParser.get_total_pages text r
  · rw [if_pos hlt, min_eq_right hlt.le]
    omega
  · rw [if_neg hlt]
    push_neg at hlt
    rw [min_eq_left hlt]
    omega

/-- C4 witness: a heading count of 1.450 with 30 results per page yields 49
total pages, uncapped at 60; a count of 1.810 yields 61, capped to 60 fetched
pages. -/
theorem pagination_ceil_and_cap_witness :
    IdealistaParser.get_total_pages "1.450" 30 = 49 ∧
    Scrapers.pages_fetched (IdealistaParser.get_total_pages "1.450" 30) 60 = 49 ∧
    IdealistaParser.get_total_pages "1.810" 30 = 61 ∧
    Scrapers.pages_fetched (IdealistaParser.get_total_pages "1.810" 30) 60 = 60 := by
  have h1 := pagination_ceil_and_cap "1.450" 30 60 (by norm_num) (by norm_num) (by decide)
  have h2 := pagination_ceil_and_cap "1.810" 30 60 (by norm_num) (by norm_num) (by decide)
  have e1 : IdealistaParser.get_total_pages "1.450" 30 = 49 := by
    rw [h1.1]
    decide
  have e2 : IdealistaParser.get_total_pages "1.810" 30 = 61 := by
    rw [h2.1]
    decide
  refine ⟨e1, ?_, e2, ?_⟩
  · rw [h1.2, e1]
    decide
  · rw [h2.2, e2]
    decide

/-- Helper: the referer update never changes last_successful_url. -/
theorem updateReferer_last (s : ClientState) :
    (updateReferer s).last_successful_url = s.last_successful_url := by
  cases h : s.last_successful_url <;> simp [updateReferer, h]

/-- Helper: applying the referer update twice attaches the same referer as
applying it once. -/
theorem updateReferer_ref2 (s : ClientState) :
    (updateReferer (updateReferer s)).referer = (updateReferer s).referer := by
  cases h : s.last_successful_url <;> simp [updateReferer, h]

/-- Helper: within one call of the BaseHTTPClient loop, last_successful_url is
written only by the 200 branch (where it becomes the requested URL), and the
referer attached to every outgoing request of the call is the one computed
from the state at entry: the last successful URL when one exists, otherwise
the preexisting session referer header. -/
theorem base_loop_referer_frame (url : String) (script : Nat → AttemptResult) :
    ∀ (fuel i : Nat) (s : ClientState),
      ((BaseHTTPClient.requestLoop url script fuel i s).outcome ≠ .success →
        (BaseHTTPClient.requestLoop url script fuel i s).state.last_successful_url =
          s.last_successful_url) ∧
      ((BaseHTTPClient.requestLoop url script fuel i s).outcome = .success →
        (BaseHTTPClient.requestLoop url script fuel i s).state.last_successful_url =
          some url) ∧
      (∀ ref ∈ (BaseHTTPClient.requestLoop url script fuel i s).referers,
        ref = (updateReferer s).referer) := by
  intro fuel
  induction fuel with
  | zero =>
    intro i s
    simp [BaseHTTPClient.requestLoop]
  | succ n ih =>
    intro i s
    obtain ⟨ih1, ih2, ih3⟩ := ih (i + 1) (updateReferer s)
    cases hsc : script i with
    | ok =>
      refine ⟨?_, ?_, ?_⟩
      · intro hne
        exact absurd (by simp [BaseHTTPClient.requestLoop, hsc]) hne
      · intro _
        simp [BaseHTTPClient.requestLoop, hsc]
      · intro ref href
        simp only [BaseHTTPClient.requestLoop, hsc, List.mem_singleton] at href
        exact href
    | rateLimit =>
      by_cases hi : i = 0
      · refine ⟨?_, ?_, ?_⟩
        · intro hne
          simp only [BaseHTTPClient.requestLoop, hsc, if_pos hi] at hne ⊢
          exact (ih1 hne).trans (updateReferer_last s)
        · intro hs
          simp only [BaseHTTPClient.requestLoop, hsc, if_pos hi] at hs ⊢
          exact ih2 hs
        · intro ref href
          simp only [BaseHTTPClient.requestLoop, hsc, if_pos hi, List.mem_cons] at href
          rcases href with h | h
          · exact h
          · exact (ih3 ref h).trans (updateReferer_ref2 s)
      · refine ⟨?_, ?_, ?_⟩
        · intro _
          simp only [BaseHTTPClient.requestLoop, hsc, if_neg hi]
          exact updateReferer_last s
        · intro hs
          simp only [BaseHTTPClient.requestLoop, hsc, if_neg hi] at hs
          exact absurd hs (by simp)
        · intro ref href
          simp only [BaseHTTPClient.requestLoop, hsc, if_neg hi,
            List.mem_singleton] at href
          exact href
    | transient =>
      refine ⟨?_, ?_, ?_⟩
      · intro hne
        simp only [BaseHTTPClient.requestLoop, hsc] at hne ⊢
        exact (ih1 hne).trans (updateReferer_last s)
      · intro hs
        simp only [BaseHTTPClient.requestLoop, hsc] at hs ⊢
        exact ih2 hs
      · intro ref href
        simp only [BaseHTTPClient.requestLoop, hsc, List.mem_cons] at href
        rcases href with h | h
        · exact h
        · exact (ih3 ref h).trans (updateReferer_ref2 s)

/-- C10 counterexample: the session headers built by get_random_header always
contain a referer (https://www.google.es/ in all five bundles), and the client
only ever overwrites this entry, so before the first successful fetch the
outgoing referer is the google.es seed, present rather than absent as the
claim states. -/
theorem referer_present_before_first_success_counterexample :
    (∀ c : Fin 5, (get_random_header c).referer = some "https://www.google.es/") ∧
    (BaseHTTPClient.request 3 "https://www.idealista.com" (fun _ => .transient)
        ⟨none, (get_random_header 0).referer⟩).referers.head? =
      some (some "https://www.google.es/") ∧
    (BaseHTTPClient.request 3 "https://www.idealista.com" (fun _ => .transient)
        ⟨none, (get_random_header 0).referer⟩).outcome ≠ .success := by
  decide

/-- C10 amended: within one client instance, last_successful_url is mutated
only when an attempt returns HTTP 200 (becoming that URL) and is unchanged by
every transient-failure, rate-limit and exception path, so the referer
attached to every outgoing request equals the most recently successfully
fetched URL, or, when none exists yet, the preexisting session referer header
(the google.es value seeded by get_random_header). -/
theorem last_successful_url_frame_and_referer (mr : Nat) (url : String)
    (script : Nat → AttemptResult) (s : ClientState) :
    ((BaseHTTPClient.request mr url script s).outcome ≠ .success →
      (BaseHTTPClient.request mr url script s).state.last_successful_url =
        s.last_successful_url) ∧
    ((BaseHTTPClient.request mr url script s).outcome = .success →
      (BaseHTTPClient.request mr url script s).state.last_successful_url = some url) ∧
    (∀ ref ∈ (BaseHTTPClient.request mr url script s).referers,
      ref = (updateReferer s).referer) :=
  base_loop_referer_frame url script (mr + 1) 0 s

/-- C10 amended witness: a fully transient call leaves last_successful_url
untouched, and a successful call records the fetched URL; every attached
referer on the transient call is the seeded session referer. -/
theorem last_successful_url_frame_and_referer_witness :
    (BaseHTTPClient.request 1 "u" (fun _ => .transient)
        ⟨none, some "https://www.google.es/"⟩).state.last_successful_url = none ∧
    (BaseHTTPClient.request 1 "u" (fun _ => .ok)
        ⟨none, some "https://www.google.es/"⟩).state.last_successful_url = some "u" :=
  ⟨(last_successful_url_frame_and_referer 1 "u" (fun _ => .transient)
      ⟨none, some "https://www.google.es/"⟩).1 (by decide),
   (last_successful_url_frame_and_referer 1 "u" (fun _ => .ok)
      ⟨none, some "https://www.google.es/"⟩).2.1 (by decide)⟩
